import Mathlib

/-!
A shallow embedding of the domain layer of the ponytracker issue tracker
(`tracker/models.py`) together with proofs about its operations.

Modelling conventions:
  * Database rows are Lean structures; each table is a list of rows kept in
    primary-key (insertion) order, which matches how the ORM returns
    unordered querysets ordered by primary key for `first()` and `last()`.
  * Timestamps (`DateTimeField`) are natural numbers measured in minutes, so
    that `timedelta(minutes=t)` becomes addition of `t`.
  * The `_args` column stores a JSON-serialised dict; we model the parsed
    dict directly as the inductive type `EventArgs`.
  * `ForeignKey` and `ManyToManyField` columns store primary keys.
  * `auto_now_add` timestamps and auto primary keys of freshly created rows
    are passed as explicit arguments.
-/

/-- A user, as far as the model layer consults it: a primary key and the
`is_authenticated` flag of the authentication framework. -/
structure User where
  id : Nat
  is_authenticated : Bool
deriving DecidableEq, Repr

/-- Row of the `Project` table. -/
structure Project where
  id : Nat
  display_name : String
  name : String
  description : String
  access : Nat
  archived : Bool
deriving DecidableEq, Repr

/-- Row of the `Label` table. -/
structure Label where
  id : Nat
  projectId : Nat
  name : String
  deleted : Bool
  color : String
  inverted : Bool
deriving DecidableEq, Repr

/-- Row of the `Milestone` table. -/
structure Milestone where
  id : Nat
  projectId : Nat
  name : String
  due_date : Option Nat
  closed : Bool
  deleted : Bool
deriving DecidableEq, Repr

/-- Row of the `Issue` table.  `id` is the project-scoped sequential id,
distinct from the storage key `primarykey`.  The many-to-many `labels` and
`subscribers` relations are stored as lists of foreign keys. -/
structure Issue where
  primarykey : Nat
  projectId : Nat
  id : Nat
  title : String
  author : Nat
  opened_at : Nat
  due_date : Option Nat
  closed : Bool
  labels : List Nat
  milestone : Option Nat
  assignee : Option Nat
  subscribers : List Nat
deriving DecidableEq, Repr

/-- The parsed contents of the `_args` JSON column of an event. -/
inductive EventArgs where
  | empty : EventArgs
  | labelArg : Nat → EventArgs
  | milestoneArg : String → EventArgs
  | changeMilestoneArg : String → String → EventArgs
deriving DecidableEq, Repr

/-- Row of the `Event` table. -/
structure Event where
  id : Nat
  issueId : Nat
  date : Nat
  author : Nat
  code : Nat
  args : EventArgs
  additionnal_section : String
deriving DecidableEq, Repr

/-- Row of the `ReadState` table: per (issue, user) last-read timestamp. -/
structure ReadState where
  issueId : Nat
  userId : Nat
  lastread : Nat
deriving DecidableEq, Repr

/-- The per-site `Settings` row fields consulted by `Event.editable_by`. -/
structure SiteSettings where
  items_per_page : Nat
  edit_policy : Nat
  edit_policy_timeout : Nat
deriving DecidableEq, Repr

def Settings.EDIT_NOTIMEOUT : Nat := 0

def Settings.EDIT_TIMEOUT : Nat := 1

def Settings.EDIT_NOMORECOMMENT : Nat := 2

def Event.UNKNOW : Nat := 0

def Event.CLOSE : Nat := 1

def Event.REOPEN : Nat := 2

def Event.RENAME : Nat := 3

def Event.ADD_LABEL : Nat := 4

def Event.DEL_LABEL : Nat := 5

def Event.SET_MILESTONE : Nat := 6

def Event.CHANGE_MILESTONE : Nat := 7

def Event.UNSET_MILESTONE : Nat := 8

def Event.REFERENCE : Nat := 9

def Event.COMMENT : Nat := 10

def Event.DESCRIBE : Nat := 11

def Event.ASSIGN : Nat := 12

def Event.UNASSIGN : Nat := 13

/-- The whole database: one list of rows per table, in primary-key order. -/
structure DB where
  projects : List Project
  labels : List Label
  milestones : List Milestone
  issues : List Issue
  events : List Event
  readstates : List ReadState
deriving DecidableEq, Repr

/-- The reverse relation `issue.events`: events of the issue, in primary-key
order. -/
def eventsOf (db : DB) (i : Issue) : List Event :=
  db.events.filter (fun e => e.issueId == i.primarykey)

/-- The reverse relation `project.issues`, by project primary key. -/
def issuesOf (db : DB) (pid : Nat) : List Issue :=
  db.issues.filter (fun i => i.projectId == pid)

/-- `self.readstates.get(user=user)` of an issue, `none` when the lookup
raises `ObjectDoesNotExist`.  The (issue, user) pair is unique. -/
def readStateOf (db : DB) (i : Issue) (u : User) : Option ReadState :=
  db.readstates.find? (fun rs => rs.issueId == i.primarykey && rs.userId == u.id)

/-- `Project.labels`: labels of the project that are not soft-deleted. -/
def Project.labels (db : DB) (p : Project) : List Label :=
  db.labels.filter (fun l => l.projectId == p.id && !l.deleted)

/-- `Project.milestones`: milestones of the project that are not
soft-deleted. -/
def Project.milestones (db : DB) (p : Project) : List Milestone :=
  db.milestones.filter (fun m => m.projectId == p.id && !m.deleted)

/-- `Issue.have_unread_message(user)`. -/
def have_unread_message (db : DB) (i : Issue) (u : User) : Bool :=
  if !u.is_authenticated then false
  else
    match readStateOf db i u with
    | none => true
    | some readstate => (eventsOf db i).any (fun e => readstate.lastread < e.date)

/-- `Issue.get_unread_event_nb(user)`. -/
def get_unread_event_nb (db : DB) (i : Issue) (u : User) : Nat :=
  if !u.is_authenticated then 0
  else
    match readStateOf db i u with
    | none => (eventsOf db i).length
    | some readstate => (eventsOf db i).countP (fun e => readstate.lastread < e.date)

/-- `Project.get_unread_issues_nb(user)`: counts the issues of the project
with an unread message. -/
def get_unread_issues_nb (db : DB) (p : Project) (u : User) : Nat :=
  if !u.is_authenticated then 0
  else (issuesOf db p.id).countP (fun issue => have_unread_message db issue u)

/-- `Issue.mark_as_read(user)`: updates or creates the ReadState and returns
the previous last-read date (`opened_at` for a fresh ReadState, the current
time for anonymous users). -/
def mark_as_read (db : DB) (i : Issue) (u : User) (now : Nat) : DB × Nat :=
  if !u.is_authenticated then (db, now)
  else
    match readStateOf db i u with
    | some readstate =>
        ({ db with
            readstates := db.readstates.map (fun r =>
              if r.issueId == i.primarykey && r.userId == u.id then
                { r with lastread := now }
              else r) },
         readstate.lastread)
    | none =>
        ({ db with readstates := db.readstates ++ [⟨i.primarykey, u.id, now⟩] },
         i.opened_at)

/-- `Issue.next_id(project)`: one past the id of the last issue of the
project, or 1 when the project has none. -/
def next_id (db : DB) (p : Project) : Nat :=
  match (issuesOf db p.id).getLast? with
  | some last_issue => last_issue.id + 1
  | none => 1

/-- `Issue.getdescevent()`: the first DESCRIBE event of the issue. -/
def getdescevent (db : DB) (i : Issue) : Option Event :=
  (eventsOf db i).find? (fun e => e.code == Event.DESCRIBE)

/-- `Issue.getdesc()`: body of the DESCRIBE event, when there is one. -/
def getdesc (db : DB) (i : Issue) : Option String :=
  (getdescevent db i).map Event.additionnal_section

/-- `Issue.setdesc(value)`: update the body of the existing DESCRIBE event
in place, or create it (authored by the issue author). -/
def setdesc (db : DB) (i : Issue) (value : String) (epk now : Nat) : DB :=
  match getdescevent db i with
  | some desc =>
      { db with
          events := db.events.map (fun e =>
            if e.id == desc.id then { e with additionnal_section := value } else e) }
  | none =>
      { db with
          events := db.events ++
            [⟨epk, i.primarykey, now, i.author, Event.DESCRIBE, EventArgs.empty, value⟩] }

/-- `Issue.deldesc()`: delete the DESCRIBE event when there is one. -/
def deldesc (db : DB) (i : Issue) : DB :=
  match getdescevent db i with
  | some desc => { db with events := db.events.filter (fun e => e.id != desc.id) }
  | none => db

/-- `Issue.add_label(author, label)`: a no-op when the label is already
attached, otherwise attaches it and records an ADD_LABEL event. -/
def add_label (db : DB) (i : Issue) (author : Nat) (label : Label) (epk now : Nat) : DB :=
  if label.id ∈ i.labels then db
  else
    { db with
        issues := db.issues.map (fun j =>
          if j.primarykey == i.primarykey then { j with labels := j.labels ++ [label.id] }
          else j),
        events := db.events ++
          [⟨epk, i.primarykey, now, author, Event.ADD_LABEL, EventArgs.labelArg label.id, ""⟩] }

/-- `Issue.remove_label(author, label)`: detaches the label (a no-op on the
relation when it was not attached) and always records a DEL_LABEL event. -/
def remove_label (db : DB) (i : Issue) (author : Nat) (label : Label) (epk now : Nat) : DB :=
  { db with
      issues := db.issues.map (fun j =>
        if j.primarykey == i.primarykey then
          { j with labels := j.labels.filter (fun l => l != label.id) }
        else j),
      events := db.events ++
        [⟨epk, i.primarykey, now, author, Event.DEL_LABEL, EventArgs.labelArg label.id, ""⟩] }

/-- Name of a milestone row looked up by primary key (attribute access
through the `milestone` foreign key). -/
def milestoneName (db : DB) (mid : Nat) : String :=
  (((db.milestones.find? (fun x => x.id == mid)).map Milestone.name)).getD ""

/-- `Issue.add_milestone(author, milestone)`: a no-op when the milestone is
already set; otherwise records a CHANGE_MILESTONE or SET_MILESTONE event and
sets the foreign key. -/
def add_milestone (db : DB) (i : Issue) (author : Nat) (m : Milestone) (epk now : Nat) : DB :=
  if i.milestone == some m.id then db
  else
    let ev : Event :=
      match i.milestone with
      | some oldId =>
          ⟨epk, i.primarykey, now, author, Event.CHANGE_MILESTONE,
            EventArgs.changeMilestoneArg (milestoneName db oldId) m.name, ""⟩
      | none =>
          ⟨epk, i.primarykey, now, author, Event.SET_MILESTONE,
            EventArgs.milestoneArg m.name, ""⟩
    { db with
        issues := db.issues.map (fun j =>
          if j.primarykey == i.primarykey then { j with milestone := some m.id } else j),
        events := db.events ++ [ev] }

/-- `Issue.remove_milestone(author, milestone)`: clears the foreign key and
records an UNSET_MILESTONE event. -/
def remove_milestone (db : DB) (i : Issue) (author : Nat) (m : Milestone) (epk now : Nat) : DB :=
  { db with
      issues := db.issues.map (fun j =>
        if j.primarykey == i.primarykey then { j with milestone := none } else j),
      events := db.events ++
        [⟨epk, i.primarykey, now, author, Event.UNSET_MILESTONE,
          EventArgs.milestoneArg m.name, ""⟩] }

/-- `Milestone.closed_issues()`: closed issues of the milestone. -/
def closed_issues (db : DB) (m : Milestone) : Nat :=
  ((db.issues.filter (fun i => i.milestone == some m.id)).filter (fun i => i.closed)).length

/-- `Milestone.total_issues()`: all issues of the milestone. -/
def total_issues (db : DB) (m : Milestone) : Nat :=
  (db.issues.filter (fun i => i.milestone == some m.id)).length

/-- `Milestone.progress()`: `int(100 * closed / total)`, or 0 without
dividing when the milestone has no issues.  The float division of the
source is exact to the integer part at these magnitudes, so it is modelled
as natural floor division. -/
def progress (db : DB) (m : Milestone) : Nat :=
  let closed := closed_issues db m
  let total := total_issues db m
  if total ≠ 0 then 100 * closed / total else 0

/-- `Event.editable()`: only comments and descriptions are editable. -/
def Event.editable (e : Event) : Bool :=
  e.code == Event.COMMENT || e.code == Event.DESCRIBE

/-- The parts of the request consulted by `Event.editable_by`: the
requesting user, the results of `has_perm` on the project of the issue, the
settings of the current site, and the current time. -/
structure Request where
  user : User
  modify_comment : Bool
  modify_issue : Bool
  modify_own_comment : Bool
  settings : SiteSettings
  now : Nat
deriving DecidableEq, Repr

/-- `Event.editable_by(request)`. -/
def editable_by (db : DB) (e : Event) (req : Request) : Bool :=
  if !e.editable then false
  else if req.modify_comment && e.code == Event.COMMENT then true
  else if req.modify_issue && e.code == Event.DESCRIBE then true
  else if !req.modify_own_comment || e.author != req.user.id then false
  else
    let policy := req.settings.edit_policy
    if policy == Settings.EDIT_TIMEOUT then
      e.date + req.settings.edit_policy_timeout > req.now
    else if policy == Settings.EDIT_NOMORECOMMENT then
      !((db.events.filter (fun c => c.issueId == e.issueId)).any
          (fun c => c.code == Event.COMMENT && e.date < c.date))
    else true

/-- Modelled from the spec: soft deletion of a label (performed in the
excluded views layer) only sets the `deleted` flag of the row. -/
def soft_delete_label (db : DB) (lid : Nat) : DB :=
  { db with
      labels := db.labels.map (fun l =>
        if l.id == lid then { l with deleted := true } else l) }

/-- Modelled from the spec: soft deletion of a milestone (performed in the
excluded views layer) only sets the `deleted` flag of the row. -/
def soft_delete_milestone (db : DB) (mid : Nat) : DB :=
  { db with
      milestones := db.milestones.map (fun m =>
        if m.id == mid then { m with deleted := true } else m) }

/-- Modelled from the spec: issue creation (performed in the excluded views
layer) inserts a new issue whose project-scoped sequential id is
`Issue.next_id(project)`. -/
def create_issue (db : DB) (p : Project) (pk : Nat) (title : String) (author now : Nat) : DB :=
  { db with
      issues := db.issues ++
        [⟨pk, p.id, next_id db p, title, author, now, none, false, [], none, none, []⟩] }

/-- One issue-creation request. -/
structure CreateOp where
  project : Project
  pk : Nat
  title : String
  author : Nat
  now : Nat
deriving DecidableEq, Repr

/-- Run a sequence of issue creations. -/
def applyOps (db : DB) (ops : List CreateOp) : DB :=
  ops.foldl (fun d op => create_issue d op.project op.pk op.title op.author op.now) db

/-- Within each project, the sequential ids of the issue list are strictly
increasing in storage order. -/
def GoodDB (db : DB) : Prop :=
  db.issues.Pairwise (fun a b => a.projectId = b.projectId → a.id < b.id)

/-- The empty database. -/
def db0 : DB := ⟨[], [], [], [], [], []⟩

/-! Concrete sample data, used to evaluate the theorems below on closed
inputs. -/

def iC1 : Issue := ⟨1, 1, 1, "t", 1, 0, none, false, [], none, none, []⟩

def uC1 : User := ⟨1, true⟩

def dbC1 : DB :=
  ⟨[], [], [], [iC1],
   [⟨1, 1, 3, 1, Event.COMMENT, EventArgs.empty, "a"⟩,
    ⟨2, 1, 7, 1, Event.COMMENT, EventArgs.empty, "b"⟩],
   [⟨1, 1, 5⟩]⟩

def pC2 : Project := ⟨1, "p", "p", "", 1, false⟩

def iC2a : Issue := ⟨1, 1, 1, "a", 1, 0, none, false, [], none, none, []⟩

def iC2b : Issue := ⟨2, 1, 2, "b", 1, 0, none, false, [], none, none, []⟩

def dbC2 : DB := ⟨[pC2], [], [], [iC2a, iC2b], [], []⟩

def iC3 : Issue := ⟨1, 1, 1, "t", 7, 0, none, false, [], none, none, []⟩

def eC3 : Event := ⟨1, 1, 0, 7, Event.DESCRIBE, EventArgs.empty, "old"⟩

def dbC3 : DB := ⟨[], [], [], [iC3], [eC3], []⟩

def iC4 : Issue := ⟨1, 1, 1, "t", 1, 0, none, false, [], none, none, []⟩

def eC4 : Event := ⟨1, 1, 0, 1, Event.DESCRIBE, EventArgs.empty, "desc"⟩

def lblC4 : Label := ⟨2, 1, "bug", false, "#000000", true⟩

def msC4 : Milestone := ⟨3, 1, "v1", none, false, false⟩

def dbC4 : DB := ⟨[], [lblC4], [msC4], [iC4], [eC4], []⟩

def eC5 : Event := ⟨1, 1, 0, 1, Event.CLOSE, EventArgs.empty, ""⟩

def reqC5 : Request := ⟨⟨1, true⟩, false, false, true, ⟨25, 0, 30⟩, 100⟩

def pC6 : Project := ⟨1, "p", "p", "", 1, false⟩

def lC6 : Label := ⟨1, 1, "bug", false, "#ff0000", true⟩

def mC6 : Milestone := ⟨1, 1, "v1", none, false, false⟩

def iC6 : Issue := ⟨1, 1, 1, "t", 1, 0, none, false, [1], some 1, none, []⟩

def evC6 : Event := ⟨1, 1, 0, 1, Event.ADD_LABEL, EventArgs.labelArg 1, ""⟩

def dbC6 : DB := ⟨[pC6], [lC6], [mC6], [iC6], [evC6], []⟩

def prC7a : Project := ⟨1, "a", "a", "", 1, false⟩

def prC7b : Project := ⟨2, "b", "b", "", 1, false⟩

def opsC7 : List CreateOp := [⟨prC7a, 1, "x", 1, 0⟩, ⟨prC7b, 2, "y", 1, 0⟩]

def iC8 : Issue := ⟨1, 1, 1, "t", 1, 0, none, false, [], none, none, []⟩

def lblC8 : Label := ⟨2, 1, "bug", false, "#000000", true⟩

def dbC8 : DB := ⟨[], [lblC8], [], [iC8], [], []⟩

def mC9 : Milestone := ⟨1, 1, "v1", none, false, false⟩

def dbC9 : DB :=
  ⟨[], [], [mC9],
   [⟨1, 1, 1, "a", 1, 0, none, true, [], some 1, none, []⟩,
    ⟨2, 1, 2, "b", 1, 0, none, true, [], some 1, none, []⟩,
    ⟨3, 1, 3, "c", 1, 0, none, false, [], some 1, none, []⟩],
   [], []⟩

def pC10 : Project := ⟨1, "p", "p", "", 1, false⟩

def iC10 : Issue := ⟨1, 1, 1, "t", 1, 4, none, false, [], none, none, []⟩

def uC10 : User := ⟨1, false⟩

/-! Helper lemmas shared by several theorems. -/

lemma any_eq_decide_countP (l : List Event) (p : Event → Bool) :
    l.any p = decide (0 < l.countP p) := by
  rw [Bool.eq_iff_iff]
  simp [List.any_eq_true, List.countP_pos_iff]

lemma le_getLast_of_pairwise_lt {l : List Issue}
    (hl : l.Pairwise (fun a b => a.id < b.id)) {x : Issue} (hx : x ∈ l)
    {y : Issue} (hy : l.getLast? = some y) : x.id ≤ y.id := by
  induction l generalizing x y with
  | nil => cases hx
  | cons a t ih =>
    rcases List.pairwise_cons.mp hl with ⟨ha, ht⟩
    cases t with
    | nil =>
      simp only [List.mem_singleton] at hx
      simp only [List.getLast?_singleton, Option.some.injEq] at hy
      subst hx
      subst hy
      exact Nat.le_refl _
    | cons b t2 =>
      rw [List.getLast?_cons_cons] at hy
      rcases List.mem_cons.mp hx with h1 | h1
      · subst h1
        exact Nat.le_of_lt (ha y (List.mem_of_mem_getLast? (by simp [hy])))
      · exact ih ht h1 hy

lemma lt_next_id_of_GoodDB {db : DB} (h : GoodDB db) (p : Project) {x : Issue}
    (hx : x ∈ issuesOf db p.id) : x.id < next_id db p := by
  have hsub : (issuesOf db p.id).Pairwise
      (fun a b => a.projectId = b.projectId → a.id < b.id) :=
    h.sublist (List.filter_sublist _)
  have hmem : ∀ a ∈ issuesOf db p.id, a.projectId = p.id := by
    intro a ha
    have := (List.mem_filter.mp ha).2
    simpa using this
  have hlt : (issuesOf db p.id).Pairwise (fun a b => a.id < b.id) :=
    hsub.imp_of_mem (fun ha hb hr => hr ((hmem _ ha).trans (hmem _ hb).symm))
  cases hy : (issuesOf db p.id).getLast? with
  | none =>
    rw [List.getLast?_eq_none_iff] at hy
    rw [hy] at hx
    cases hx
  | some y =>
    have hle := le_getLast_of_pairwise_lt hlt hx hy
    simp [next_id, hy]
    exact Nat.lt_succ_of_le hle

lemma GoodDB_create (db : DB) (p : Project) (pk : Nat) (title : String)
    (author now : Nat) (h : GoodDB db) :
    GoodDB (create_issue db p pk title author now) := by
  unfold GoodDB create_issue
  rw [List.pairwise_append]
  refine ⟨h, List.pairwise_singleton _ _, ?_⟩
  intro a ha b hb hproj
  simp at hb
  subst hb
  simp only at hproj ⊢
  exact lt_next_id_of_GoodDB h p (List.mem_filter.mpr ⟨ha, by simp [hproj]⟩)

lemma GoodDB_applyOps (db : DB) (h : GoodDB db) (ops : List CreateOp) :
    GoodDB (applyOps db ops) := by
  induction ops generalizing db with
  | nil => exact h
  | cons op rest ih =>
    simp only [applyOps, List.foldl_cons]
    exact ih _ (GoodDB_create db op.project op.pk op.title op.author op.now h)

/-- C9: Milestone.progress is total and bounded: it is between 0 and 100
inclusive, equals the integer part of 100 times the closed-issue count
divided by the total count when the milestone has issues, and is 0 without
dividing when it has none. -/
theorem C9_progress_bounded (db : DB) (m : Milestone) :
    progress db m ≤ 100 ∧
    (total_issues db m ≠ 0 →
      progress db m = 100 * closed_issues db m / total_issues db m) ∧
    (total_issues db m = 0 → progress db m = 0) := by
  have hct : closed_issues db m ≤ total_issues db m :=
    List.length_filter_le _ _
  refine ⟨?_, ?_, ?_⟩
  · simp only [progress]
    split
    · calc 100 * closed_issues db m / total_issues db m
          ≤ 100 * total_issues db m / total_issues db m :=
            Nat.div_le_div_right (Nat.mul_le_mul_left _ hct)
        _ = 100 := Nat.mul_div_cancel _ (Nat.pos_of_ne_zero (by assumption))
    · exact Nat.zero_le _
  · intro h
    simp [progress, h]
  · intro h
    simp [progress, h]

/-- Witness for C9 on a concrete milestone with three issues, two closed. -/
theorem C9_progress_bounded_witness :
    progress dbC9 mC9 = 100 * closed_issues dbC9 mC9 / total_issues dbC9 mC9 :=
  (C9_progress_bounded dbC9 mC9).2.1 (by decide)

/-- C10: for an unauthenticated user, the read-state interface is a uniform
no-op: unread counts are 0, have_unread_message is false, and mark_as_read
returns the current time without touching the database. -/
theorem C10_unauthenticated_noop (db : DB) (p : Project) (i : Issue) (u : User)
    (now : Nat) (h : u.is_authenticated = false) :
    get_unread_issues_nb db p u = 0 ∧
    get_unread_event_nb db i u = 0 ∧
    have_unread_message db i u = false ∧
    mark_as_read db i u now = (db, now) := by
  refine ⟨?_, ?_, ?_, ?_⟩ <;>
    simp [get_unread_issues_nb, get_unread_event_nb, have_unread_message,
      mark_as_read, h]

/-- Witness for C10 at a concrete anonymous user. -/
theorem C10_unauthenticated_noop_witness :
    get_unread_issues_nb db0 pC10 uC10 = 0 ∧
    get_unread_event_nb db0 iC10 uC10 = 0 ∧
    have_unread_message db0 iC10 uC10 = false ∧
    mark_as_read db0 iC10 uC10 5 = (db0, 5) :=
  C10_unauthenticated_noop db0 pC10 iC10 uC10 5 rfl

/-- C2: Issue.next_id returns the id of the last issue of the project plus
one, and 1 when the project has no issues. -/
theorem C2_next_id_succ (db : DB) (p : Project) :
    (∀ li, (issuesOf db p.id).getLast? = some li → next_id db p = li.id + 1) ∧
    (issuesOf db p.id = [] → next_id db p = 1) := by
  constructor
  · intro li hli
    simp [next_id, hli]
  · intro h
    simp [next_id, h]

/-- Witness for C2 on a project whose last issue has id 2. -/
theorem C2_next_id_succ_witness : next_id dbC2 pC2 = 3 :=
  (C2_next_id_succ dbC2 pC2).1 iC2b rfl

/-- C1: for an authenticated user with a ReadState on the issue,
get_unread_event_nb counts the events strictly later than lastread and
have_unread_message is true iff that count is positive; with no ReadState,
get_unread_event_nb is the total event count and have_unread_message is
true. -/
theorem C1_unread_tracking (db : DB) (i : Issue) (u : User)
    (h : u.is_authenticated = true) :
    (∀ rs, readStateOf db i u = some rs →
      get_unread_event_nb db i u
          = ((eventsOf db i).filter (fun e => rs.lastread < e.date)).length ∧
      have_unread_message db i u = decide (0 < get_unread_event_nb db i u)) ∧
    (readStateOf db i u = none →
      get_unread_event_nb db i u = (eventsOf db i).length ∧
      have_unread_message db i u = true) := by
  constructor
  · intro rs hrs
    constructor
    · simp [get_unread_event_nb, h, hrs, List.countP_eq_length_filter]
    · simp only [have_unread_message, get_unread_event_nb, h,
        Bool.not_true, Bool.false_eq_true, if_false, hrs]
      exact any_eq_decide_countP _ _
  · intro hrs
    refine ⟨?_, ?_⟩ <;>
      simp [get_unread_event_nb, have_unread_message, h, hrs]

/-- Witness for C1 on a concrete issue with one event before and one after
the last-read timestamp. -/
theorem C1_unread_tracking_witness :
    get_unread_event_nb dbC1 iC1 uC1
        = ((eventsOf dbC1 iC1).filter (fun e => (5 : Nat) < e.date)).length ∧
    have_unread_message dbC1 iC1 uC1
        = decide (0 < get_unread_event_nb dbC1 iC1 uC1) :=
  (C1_unread_tracking dbC1 iC1 uC1 rfl).1 ⟨1, 1, 5⟩ rfl

/-- C7: starting from any database whose per-project issue ids are strictly
increasing in storage order (in particular the empty one), after every
sequence of issue creations through Issue.next_id no two issues of the same
project share an id, while issues of different projects may share one. -/
theorem C7_id_unique_per_project :
    (∀ db : DB, GoodDB db → ∀ ops : List CreateOp,
      (applyOps db ops).issues.Pairwise
        (fun a b => a.projectId = b.projectId → a.id ≠ b.id)) ∧
    (∃ ops : List CreateOp, ∃ a b : Issue,
      a ∈ (applyOps db0 ops).issues ∧ b ∈ (applyOps db0 ops).issues ∧
      a.projectId ≠ b.projectId ∧ a.id = b.id) := by
  constructor
  · intro db h ops
    exact (GoodDB_applyOps db h ops).imp (fun hr heq => Nat.ne_of_lt (hr heq))
  · refine ⟨opsC7, ⟨1, 1, 1, "x", 1, 0, none, false, [], none, none, []⟩,
      ⟨2, 2, 1, "y", 1, 0, none, false, [], none, none, []⟩,
      by decide, by decide, by decide, by decide⟩

/-- Witness for C7: the invariant computed on a concrete two-creation run
from the empty database. -/
theorem C7_id_unique_per_project_witness :
    (applyOps db0 opsC7).issues.Pairwise
      (fun a b => a.projectId = b.projectId → a.id ≠ b.id) :=
  C7_id_unique_per_project.1 db0 List.Pairwise.nil opsC7

/-- C8: add_label is a no-op when the label is already attached; otherwise
it attaches the label and appends exactly one ADD_LABEL event; remove_label
always appends a DEL_LABEL event, attached or not. -/
theorem C8_label_mutators (db : DB) (i : Issue) (author : Nat) (label : Label)
    (epk now : Nat) :
    (label.id ∈ i.labels → add_label db i author label epk now = db) ∧
    (label.id ∉ i.labels →
      (add_label db i author label epk now).events
          = db.events ++
            [⟨epk, i.primarykey, now, author, Event.ADD_LABEL,
              EventArgs.labelArg label.id, ""⟩] ∧
      (i ∈ db.issues →
        { i with labels := i.labels ++ [label.id] }
            ∈ (add_label db i author label epk now).issues)) ∧
    (remove_label db i author label epk now).events
        = db.events ++
          [⟨epk, i.primarykey, now, author, Event.DEL_LABEL,
            EventArgs.labelArg label.id, ""⟩] := by
  refine ⟨?_, ?_, ?_⟩
  · intro hmem
    simp [add_label, hmem]
  · intro hmem
    constructor
    · simp [add_label, hmem]
    · intro hin
      have := List.mem_map_of_mem
        (fun j => if j.primarykey == i.primarykey then
          { j with labels := j.labels ++ [label.id] } else j) hin
      simp only [beq_self_eq_true, if_true] at this
      simpa [add_label, hmem] using this
  · simp [remove_label]

/-- Witness for C8: attaching a fresh label to a concrete issue appends one
ADD_LABEL event. -/
theorem C8_label_mutators_witness :
    (add_label dbC8 iC8 1 lblC8 9 9).events
        = dbC8.events ++
          [⟨9, iC8.primarykey, 9, 1, Event.ADD_LABEL,
            EventArgs.labelArg lblC8.id, ""⟩] :=
  ((C8_label_mutators dbC8 iC8 1 lblC8 9 9).2.1 (by decide)).1

/-- C3: with no DESCRIBE event, reading the description gives none and
writing it creates exactly one DESCRIBE event carrying the written value;
with an existing DESCRIBE event, writing updates it in place without
creating an event and a subsequent read returns the written value. -/
theorem C3_description_lifecycle (db : DB) (i : Issue) (value : String)
    (epk now : Nat) :
    (getdescevent db i = none →
      getdesc db i = none ∧
      (eventsOf (setdesc db i value epk now) i).filter
          (fun e => e.code == Event.DESCRIBE)
        = [⟨epk, i.primarykey, now, i.author, Event.DESCRIBE,
            EventArgs.empty, value⟩]) ∧
    (∀ d, getdescevent db i = some d →
      (setdesc db i value epk now).events.length = db.events.length ∧
      getdesc (setdesc db i value epk now) i = some value) := by
  constructor
  · intro h
    have h0 := h
    unfold getdescevent at h0
    have hnil : (eventsOf db i).filter (fun e => e.code == Event.DESCRIBE) = [] :=
      List.filter_eq_nil_iff.mpr (List.find?_eq_none.mp h0)
    refine ⟨by simp [getdesc, h], ?_⟩
    simp only [eventsOf] at hnil
    simp only [setdesc, h, eventsOf]
    rw [List.filter_append, List.filter_append, hnil]
    simp
  · intro d hd
    have hd0 := hd
    unfold getdescevent at hd0
    simp only [eventsOf] at hd0
    refine ⟨by simp [setdesc, hd], ?_⟩
    have hpresI : ((fun e => Event.issueId e == i.primarykey) ∘
        (fun e : Event => if e.id == d.id then
          { e with additionnal_section := value } else e))
        = fun e : Event => e.issueId == i.primarykey := by
      funext e
      by_cases hc : (e.id == d.id) = true <;> simp [Function.comp, hc]
    have hpresD : ((fun e => Event.code e == Event.DESCRIBE) ∘
        (fun e : Event => if e.id == d.id then
          { e with additionnal_section := value } else e))
        = fun e : Event => e.code == Event.DESCRIBE := by
      funext e
      by_cases hc : (e.id == d.id) = true <;> simp [Function.comp, hc]
    have hset : setdesc db i value epk now =
        { db with events := db.events.map (fun e =>
            if e.id == d.id then { e with additionnal_section := value } else e) } := by
      simp [setdesc, hd]
    simp only [getdesc, getdescevent, eventsOf, hset]
    rw [List.filter_map, hpresI, List.find?_map, hpresD, hd0]
    simp

/-- Witness for C3 on a concrete issue whose DESCRIBE event holds "old":
writing "new" keeps the event count and reads back as "new". -/
theorem C3_description_lifecycle_witness :
    (setdesc dbC3 iC3 "new" 2 9).events.length = dbC3.events.length ∧
    getdesc (setdesc dbC3 iC3 "new" 2 9) iC3 = some "new" :=
  (C3_description_lifecycle dbC3 iC3 "new" 2 9).2 eC3 rfl

/-- C5: for a COMMENT or DESCRIBE event authored by the requesting user who
holds only the modify-own permission, editable_by is true under the
no-timeout policy, true under the timeout policy iff the event date plus
the timeout is still in the future, and true under the until-next-comment
policy iff the issue has no strictly later COMMENT event; any event with
another code is never editable. -/
theorem C5_edit_policy (db : DB) (e : Event) (req : Request) :
    (e.author = req.user.id → req.modify_comment = false →
     req.modify_issue = false → req.modify_own_comment = true →
     (e.code = Event.COMMENT ∨ e.code = Event.DESCRIBE) →
      ((req.settings.edit_policy = Settings.EDIT_NOTIMEOUT →
          editable_by db e req = true) ∧
       (req.settings.edit_policy = Settings.EDIT_TIMEOUT →
          (editable_by db e req = true ↔
            req.now < e.date + req.settings.edit_policy_timeout)) ∧
       (req.settings.edit_policy = Settings.EDIT_NOMORECOMMENT →
          (editable_by db e req = true ↔
            ¬ ∃ c ∈ db.events, c.issueId = e.issueId ∧
              c.code = Event.COMMENT ∧ e.date < c.date)))) ∧
    (e.code ≠ Event.COMMENT → e.code ≠ Event.DESCRIBE →
      editable_by db e req = false) := by
  constructor
  · intro hauth h1 h2 h3 hcode
    have hed : e.editable = true := by
      rcases hcode with hc | hc <;> simp [Event.editable, hc]
    refine ⟨?_, ?_, ?_⟩
    · intro hp
      rcases hcode with hc | hc <;>
        simp [editable_by, Event.editable, hc, h1, h2, h3, hauth, hp,
          Settings.EDIT_NOTIMEOUT, Settings.EDIT_TIMEOUT,
          Settings.EDIT_NOMORECOMMENT, Event.COMMENT, Event.DESCRIBE]
    · intro hp
      rcases hcode with hc | hc <;>
        simp [editable_by, Event.editable, hc, h1, h2, h3, hauth, hp,
          Settings.EDIT_TIMEOUT, Event.COMMENT, Event.DESCRIBE,
          Nat.lt_iff_add_one_le]
    · intro hp
      rcases hcode with hc | hc <;>
        simp [editable_by, Event.editable, hc, h1, h2, h3, hauth, hp,
          Settings.EDIT_TIMEOUT, Settings.EDIT_NOMORECOMMENT,
          Event.COMMENT, Event.DESCRIBE, List.any_eq_true, List.mem_filter]
  · intro hc1 hc2
    simp [editable_by, Event.editable, hc1, hc2]

/-- Witness for C5: a CLOSE event is not editable. -/
theorem C5_edit_policy_witness : editable_by db0 eC5 reqC5 = false :=
  (C5_edit_policy db0 eC5 reqC5).2 (by decide) (by decide)

/-- C6: a soft-deleted label or milestone is excluded from Project.labels
and Project.milestones, while the record itself stays in its table with
only the flag changed and the event log and the other tables are untouched.
The flag-setting operation lives in the excluded views layer and is
modelled from the spec. -/
theorem C6_soft_deletion (db : DB) (p : Project) (lb : Label) (m : Milestone)
    (hl : lb ∈ db.labels) (hm : m ∈ db.milestones) :
    (∀ l ∈ db.labels, l.deleted = true → l ∉ Project.labels db p) ∧
    (∀ ms ∈ db.milestones, ms.deleted = true → ms ∉ Project.milestones db p) ∧
    { lb with deleted := true } ∈ (soft_delete_label db lb.id).labels ∧
    { lb with deleted := true } ∉ Project.labels (soft_delete_label db lb.id) p ∧
    (soft_delete_label db lb.id).events = db.events ∧
    (soft_delete_label db lb.id).issues = db.issues ∧
    (soft_delete_label db lb.id).milestones = db.milestones ∧
    { m with deleted := true } ∈ (soft_delete_milestone db m.id).milestones ∧
    { m with deleted := true }
        ∉ Project.milestones (soft_delete_milestone db m.id) p ∧
    (soft_delete_milestone db m.id).events = db.events ∧
    (soft_delete_milestone db m.id).issues = db.issues ∧
    (soft_delete_milestone db m.id).labels = db.labels := by
  refine ⟨?_, ?_, ?_, ?_, rfl, rfl, rfl, ?_, ?_, rfl, rfl, rfl⟩
  · intro l hmem hdel hcon
    have := (List.mem_filter.mp hcon).2
    simp [hdel] at this
  · intro ms hmem hdel hcon
    have := (List.mem_filter.mp hcon).2
    simp [hdel] at this
  · have := List.mem_map_of_mem
      (fun l : Label => if l.id == lb.id then { l with deleted := true } else l) hl
    simpa [soft_delete_label] using this
  · intro hcon
    have := (List.mem_filter.mp hcon).2
    simp at this
  · have := List.mem_map_of_mem
      (fun x : Milestone => if x.id == m.id then { x with deleted := true } else x) hm
    simpa [soft_delete_milestone] using this
  · intro hcon
    have := (List.mem_filter.mp hcon).2
    simp at this

/-- Witness for C6 on a concrete database: soft deletion of the label does
not change the event log. -/
theorem C6_soft_deletion_witness :
    (soft_delete_label dbC6 lC6.id).events = dbC6.events :=
  (C6_soft_deletion dbC6 pC6 lC6 mC6 (by decide) (by decide)).2.2.2.2.1

/-- C4 fails as stated: on a concrete issue with a DESCRIBE event, deldesc
deletes that stored event, and setdesc modifies its stored body, so the
event log is not append-only under every model operation. -/
theorem C4_append_only_counterexample :
    (eC4 ∈ dbC4.events ∧ eC4 ∉ (deldesc dbC4 iC4).events) ∧
    (eC4 ∈ dbC4.events ∧ eC4 ∉ (setdesc dbC4 iC4 "x" 9 9).events) := by
  decide

/-- C4 (amended): the label and milestone mutators only append to the event
log; setdesc deletes nothing and preserves issue, code, author, date and
args of every stored event (it may rewrite the body of the DESCRIBE event);
deldesc removes the DESCRIBE event when the issue has one and is the
identity otherwise. -/
theorem C4_append_only_amended (db : DB) (i : Issue) (author : Nat)
    (label : Label) (m : Milestone) (value : String) (epk now : Nat) :
    db.events <+: (add_label db i author label epk now).events ∧
    db.events <+: (remove_label db i author label epk now).events ∧
    db.events <+: (add_milestone db i author m epk now).events ∧
    db.events <+: (remove_milestone db i author m epk now).events ∧
    db.events.length ≤ (setdesc db i value epk now).events.length ∧
    (∀ (k : Nat) (e eN : Event), db.events[k]? = some e →
      (setdesc db i value epk now).events[k]? = some eN →
      eN.issueId = e.issueId ∧ eN.code = e.code ∧ eN.author = e.author ∧
      eN.date = e.date ∧ eN.args = e.args) ∧
    (∀ d, getdescevent db i = some d → d ∉ (deldesc db i).events) ∧
    (getdescevent db i = none → deldesc db i = db) := by
  refine ⟨?_, ?_, ?_, ?_, ?_, ?_, ?_, ?_⟩
  · unfold add_label
    split
    · exact List.prefix_rfl
    · exact List.prefix_append _ _
  · exact List.prefix_append _ _
  · unfold add_milestone
    split
    · exact List.prefix_rfl
    · exact List.prefix_append _ _
  · exact List.prefix_append _ _
  · unfold setdesc
    split <;> simp
  · intro k e eN h1 h2
    rcases hcase : getdescevent db i with _ | d
    · simp only [setdesc, hcase] at h2
      have hk := (List.getElem?_eq_some.mp h1).1
      rw [List.getElem?_append_left hk, h1] at h2
      cases h2
      exact ⟨rfl, rfl, rfl, rfl, rfl⟩
    · simp only [setdesc, hcase, List.getElem?_map, h1, Option.map_some] at h2
      cases h2
      by_cases hc : (e.id == d.id) = true <;> simp [hc]
  · intro d hd
    simp [deldesc, hd, List.mem_filter]
  · intro h
    simp [deldesc, h]

/-- Witness for the amended C4: add_label on a concrete database extends
the event log. -/
theorem C4_append_only_amended_witness :
    dbC4.events <+: (add_label dbC4 iC4 1 lblC4 9 9).events :=
  (C4_append_only_amended dbC4 iC4 1 lblC4 msC4 "v" 9 9).1
